import Mathlib

/-!
Verification of the RobloxPatcher repository's patch-orchestration and
binary-transformation core against its natural-language specification.

The Python source is shallowly embedded:
* Python `str` values are modelled as `List Char` (a Python string is a
  sequence of code points, compared code-point-wise, exactly like `List Char`
  with `Char` order).
* Python `bytes` values are modelled as `List Nat` (each entry one byte).
* The filesystem is modelled as a map from path strings to entries
  (`FS := List Char → Option FsEntry`); reading a missing file corresponds to
  the `open` call raising, which every patcher catches and turns into a
  `False` result.
* External collaborators (the `KeyGenerator.exe` subprocess, the
  `xml.etree.ElementTree` library) are passed in as opaque function
  parameters, mirroring the spec's treatment of them as external
  capabilities.
-/

/-- A Python string: a sequence of code points. -/
abbrev PyStr := List Char

/-- Shorthand turning a Lean string literal into its code-point list. -/
def pystr (s : String) : PyStr := s.data

/-- A filesystem entry: a regular file with byte contents, or a directory. -/
inductive FsEntry where
  | file (data : List Nat)
  | dir
deriving DecidableEq, Repr

/-- The filesystem: a partial map from paths to entries. -/
abbrev FS := PyStr → Option FsEntry

/-- Writing a file: `open(path, 'wb'); write(data)`. -/
def fsWrite (fs : FS) (p : PyStr) (e : FsEntry) : FS :=
  fun q => if q = p then some e else fs q

/-- Reading a file's bytes; `none` when the path is absent or a directory,
in which case the Python `open`/`read` raises. -/
def readFile (fs : FS) (p : PyStr) : Option (List Nat) :=
  match fs p with
  | some (FsEntry.file d) => some d
  | _ => none

/-- `path.exists()`. -/
def fsExists (fs : FS) (p : PyStr) : Bool :=
  (fs p).isSome

/-- `Path(d) / f`. -/
def joinPath (d f : PyStr) : PyStr := d ++ pystr "/" ++ f

/-- `file_path.with_suffix(f"{file_path.suffix}.backup")`: re-attaching the
existing final suffix and adding `.backup` appends `.backup` to the path. -/
def backupPath (p : PyStr) : PyStr := p ++ pystr ".backup"

/-- UTF-8 encoding of one code point (Python `str.encode()` is UTF-8). -/
def utf8Bytes (c : Char) : List Nat :=
  let n := c.toNat
  if n < 128 then [n]
  else if n < 2048 then [192 + n / 64, 128 + n % 64]
  else if n < 65536 then [224 + n / 4096, 128 + (n / 64) % 64, 128 + n % 64]
  else [240 + n / 262144, 128 + (n / 4096) % 64, 128 + (n / 64) % 64, 128 + n % 64]

/-- `s.encode()`: UTF-8 bytes of a Python string. -/
def strBytes (s : PyStr) : List Nat := (s.map utf8Bytes).flatten

/-! ## ByteEditor primitives

`bytes.replace` in Python scans left to right, replacing every
non-overlapping occurrence and resuming the scan after each replacement. -/

/-- Decidable "searchPattern occurs in bytes" check, Python's `search in content`
for a nonempty pattern, and the scanner used by `bytes.replace`. -/
def replaceScan (s r : List Nat) : List Nat → List Nat
  | [] => []
  | c :: rest =>
    if s.isPrefixOf (c :: rest) then r ++ replaceScan s r (rest.drop (s.length - 1))
    else c :: replaceScan s r rest
termination_by l => l.length
decreasing_by
  · simp only [List.length_cons, List.length_drop]
    omega
  · simp

/-- Python `content.replace(search, replace)` over byte strings.  For an empty
search pattern Python interleaves the replacement around every byte. -/
def pyReplace (s r c : List Nat) : List Nat :=
  if s.isEmpty then r ++ (c.map (fun x => x :: r)).flatten
  else replaceScan s r c

/-- Python `search in content` (contiguous subsequence test). -/
def containsSub (s : List Nat) : List Nat → Bool
  | [] => s.isEmpty
  | c :: rest => s.isPrefixOf (c :: rest) || containsSub s rest

/-- The stretches of untouched bytes lying between the non-overlapping
occurrences that `bytes.replace` rewrites: `content` is the interleaving of
these stretches with the search pattern, and the replace result is their
interleaving with the replacement. -/
def chunks (s : List Nat) : List Nat → List (List Nat)
  | [] => [[]]
  | c :: rest =>
    if s.isPrefixOf (c :: rest) then [] :: chunks s (rest.drop (s.length - 1))
    else
      match chunks s rest with
      | [] => [[c]]
      | h :: t => (c :: h) :: t
termination_by l => l.length
decreasing_by
  · simp only [List.length_cons, List.length_drop]
    omega
  · simp

/-- Outcome of `ModernPatcher.replace_in_binary`, labelling the branch taken.
The Python function returns a `bool`; the three `False` branches are
distinguished in the source by their log messages (`Search and replace must
be the same length`, `Error replacing in binary` on a failed read, and
`Search pattern not found`). -/
inductive ReplaceOutcome where
  | lengthMismatch
  | fileNotFound
  | patternNotFound
  | replaced
deriving DecidableEq, Repr

/-- `ModernPatcher.replace_in_binary(file_path, search, replace)`
(src/modern_patchers.py lines 267-313): refuse differing lengths before any
I/O, read the file, refuse an absent pattern, otherwise write back
`content.replace(search, replace)`. -/
def replace_in_binary (fs : FS) (path : PyStr) (search repl : List Nat) :
    ReplaceOutcome × FS :=
  if search.length ≠ repl.length then (ReplaceOutcome.lengthMismatch, fs)
  else
    match readFile fs path with
    | none => (ReplaceOutcome.fileNotFound, fs)
    | some content =>
      if ¬ containsSub search content then (ReplaceOutcome.patternNotFound, fs)
      else (ReplaceOutcome.replaced, fsWrite fs path (FsEntry.file (pyReplace search repl content)))

/-! ## Domain normalization (`ModernPatcher._validate_domain`) -/

/-- A run of `n` `'.'` characters, Python `'.' * n`. -/
def dotPad (n : Nat) : PyStr := List.replicate n '.'

/-- `ModernPatcher._validate_domain` (src/modern_patchers.py lines 79-108):
pad a short domain with `'.'` on the right to 10 characters, truncate a long
one to its first 10 characters (`domain[:10]`), return a 10-character domain
unchanged.  Despite its docstring, the function never raises. -/
def validate_domain (domain : PyStr) : PyStr :=
  if domain.length ≠ 10 then
    if domain.length < 10 then domain ++ dotPad (10 - domain.length)
    else if domain.length > 10 then domain.take 10
    else domain
  else domain

/-! ## Public-key blob location (`PublicKeyPatcher.apply`, lines 88-109)

The Python code locates keys with `re.findall(b'BGIAA[A-Za-z0-9+/=]+', content)`
and then replaces each found byte string with the freshly generated key,
verbatim, via `content.replace(old_key, new_public_key.encode())`. -/

/-- Membership in the regex class `[A-Za-z0-9+/=]` at the byte level. -/
def isB64 (b : Nat) : Bool :=
  (65 ≤ b && b ≤ 90) || (97 ≤ b && b ≤ 122) || (48 ≤ b && b ≤ 57) ||
    b = 43 || b = 47 || b = 61

/-- The fixed key-blob marker `b"BGIAA"`. -/
def keyBlobStart : List Nat := [66, 71, 73, 65, 65]

/-- `re.findall(b'BGIAA[A-Za-z0-9+/=]+', content)`: leftmost non-overlapping
matches, each the marker followed by the maximal (greedy) nonempty run of
base64-class bytes; scanning resumes after each match. -/
def findKeyMatches : List Nat → List (List Nat)
  | [] => []
  | c :: rest =>
    let body := ((c :: rest).drop 5).takeWhile isB64
    if keyBlobStart.isPrefixOf (c :: rest) && ¬ body.isEmpty then
      (keyBlobStart ++ body) :: findKeyMatches ((c :: rest).drop (5 + body.length))
    else findKeyMatches rest
termination_by l => l.length
decreasing_by
  · simp only [List.length_cons, List.length_drop]
    omega
  · simp

/-- The replacement loop of `PublicKeyPatcher.apply`:
`for old_key in matches: content = content.replace(old_key, new_key)`.
No padding or truncation of `newKey` happens anywhere. -/
def replacePublicKeys (content newKey : List Nat) : List Nat :=
  (findKeyMatches content).foldl (fun acc old => pyReplace old newKey acc) content

/-! ## Configuration data model (src/config.py) -/

/-- `ClientType` enum. -/
inductive ClientType where
  | player
  | studio
  | rcc_service
deriving DecidableEq, Repr

/-- `PatchType` enum. -/
inductive PatchType where
  | website
  | public_key
  | blocking
  | invalid_request
  | trust_check
  | ratnet_key
  | html_service
deriving DecidableEq, Repr

/-- `PatchConfig` dataclass; the `patches` set is modelled by its membership
predicate. -/
structure PatchConfig where
  client_path : PyStr := []
  website_domain : PyStr := []
  version_year : Nat := 2010
  client_type : ClientType := ClientType.player
  patches : PatchType → Bool := fun _ => false
  rbxsigtools_path : PyStr := []
  x64dbg_path : PyStr := []

/-! ## BackupManager (src/patchers/base_patcher.py lines 28-52 and
src/modern_patchers.py lines 133-157) -/

/-- `BasePatcher.backup_client`: missing source gives `None`; an existing
backup is returned untouched; otherwise the target's bytes are copied to
`path + ".backup"`.  `shutil.copy2` on a directory raises, which the method
catches and turns into `None`. -/
def backup_client (fs : FS) (p : PyStr) : Option PyStr × FS :=
  match fs p with
  | none => (none, fs)
  | some FsEntry.dir => (none, fs)
  | some (FsEntry.file data) =>
    if (fs (backupPath p)).isSome then (some (backupPath p), fs)
    else (some (backupPath p), fsWrite fs (backupPath p) (FsEntry.file data))

/-- `ModernPatcher.create_backup`: identical backup logic; a missing source
raises `FileNotFoundError` (modelled as `none`). -/
def create_backup (fs : FS) (p : PyStr) : Option PyStr × FS :=
  match fs p with
  | none => (none, fs)
  | some FsEntry.dir => (none, fs)
  | some (FsEntry.file data) =>
    if (fs (backupPath p)).isSome then (some (backupPath p), fs)
    else (some (backupPath p), fsWrite fs (backupPath p) (FsEntry.file data))

/-! ## Website patch (src/patchers/website_patcher.py) -/

/-- `WebsitePatcher.validate`: client file exists and the domain is exactly
10 characters. -/
def websiteValidate (fs : FS) (cfg : PatchConfig) : Bool :=
  fsExists fs cfg.client_path && cfg.website_domain.length == 10

/-- `self.client_path.parent / "AppSettings.xml"`. -/
def appSettingsPath (clientPath : PyStr) : PyStr :=
  (clientPath.reverse.dropWhile (fun c => c ≠ '/')).reverse ++ pystr "AppSettings.xml"

/-- The fresh `AppSettings.xml` template written when the sidecar is absent. -/
def newAppSettingsXml (domain : PyStr) : List Nat :=
  strBytes (pystr "<?xml version=\"1.0\" encoding=\"UTF-8\"?>\n<Settings>\n<ContentFolder>content</ContentFolder>\n<BaseUrl>http://www."
    ++ domain ++ pystr "</BaseUrl>\n</Settings>\n")

/-- `WebsitePatcher.apply`: validate first and return `False` untouched on
failure; otherwise back up, rewrite every `b'roblox.com'` occurrence with the
encoded domain, and create or update the `AppSettings.xml` sidecar.  The
`xml.etree.ElementTree` update of an existing sidecar is the external
collaborator `updateXml`; its internal failure is caught by
`_update_app_settings` itself, leaving the sidecar unwritten. -/
def websiteApply (updateXml : List Nat → PyStr → List Nat) (fs : FS)
    (cfg : PatchConfig) : Bool × FS :=
  if ¬ websiteValidate fs cfg then (false, fs)
  else
    match backup_client fs cfg.client_path with
    | (none, fs1) => (false, fs1)
    | (some _, fs1) =>
      match readFile fs1 cfg.client_path with
      | none => (false, fs1)
      | some content =>
        let fs2 := fsWrite fs1 cfg.client_path
          (FsEntry.file (pyReplace (strBytes (pystr "roblox.com"))
            (strBytes cfg.website_domain) content))
        let sp := appSettingsPath cfg.client_path
        if ¬ fsExists fs2 sp then
          (true, fsWrite fs2 sp (FsEntry.file (newAppSettingsXml cfg.website_domain)))
        else
          match readFile fs2 sp with
          | some old => (true, fsWrite fs2 sp (FsEntry.file (updateXml old cfg.website_domain)))
          | none => (true, fs2)

/-! ## Public-key patch (src/patchers/public_key_patcher.py) -/

/-- `PublicKeyPatcher.validate`: client exists, an RbxSigTools path is
configured (nonempty), that path exists, and `KeyGenerator.exe` exists in it. -/
def publicKeyValidate (fs : FS) (cfg : PatchConfig) : Bool :=
  fsExists fs cfg.client_path && ¬ cfg.rbxsigtools_path.isEmpty &&
    fsExists fs cfg.rbxsigtools_path &&
    fsExists fs (joinPath cfg.rbxsigtools_path (pystr "KeyGenerator.exe"))

/-- Python `str.strip()` whitespace at the byte level (target files are
ASCII key blobs). -/
def isWsByte (b : Nat) : Bool :=
  b = 32 || b = 9 || b = 10 || b = 13 || b = 11 || b = 12

/-- `new_public_key = file.read().strip()`. -/
def stripBytes (bs : List Nat) : List Nat :=
  ((bs.dropWhile isWsByte).reverse.dropWhile isWsByte).reverse

/-- `PublicKeyPatcher.apply`: validate first and return `False` untouched on
failure; otherwise back up, invoke the external key generator (`runKeygen`,
an opaque collaborator returning an exit code and the filesystem it left
behind), read the generated `PublicKeyBlob.txt`, locate every `BGIAA…` blob
and rewrite the client with the verbatim new key. -/
def publicKeyApply (runKeygen : FS → Int × FS) (fs : FS) (cfg : PatchConfig) :
    Bool × FS :=
  if ¬ publicKeyValidate fs cfg then (false, fs)
  else
    match backup_client fs cfg.client_path with
    | (none, fs1) => (false, fs1)
    | (some _, fs1) =>
      let kg := runKeygen fs1
      let fs2 := kg.2
      if kg.1 ≠ 0 then (false, fs2)
      else
        match readFile fs2 (joinPath cfg.rbxsigtools_path (pystr "PublicKeyBlob.txt")) with
        | none => (false, fs2)
        | some keyRaw =>
          let newKey := stripBytes keyRaw
          match readFile fs2 cfg.client_path with
          | none => (false, fs2)
          | some content =>
            if (findKeyMatches content).isEmpty then (false, fs2)
            else (true, fsWrite fs2 cfg.client_path
              (FsEntry.file (replacePublicKeys content newKey)))

/-! ## Patch orchestration (src/ui/patch_panel.py lines 370-427) -/

/-- Per-patch outcome as surfaced by the status messages of
`_apply_patches_thread`: `Validation failed for …` (skipped),
`… applied successfully`, `Failed to apply …`. -/
inductive PatchOutcome where
  | applied
  | skipped
  | failed
deriving DecidableEq, Repr

/-- The fixed order in which `_apply_patches_thread` constructs patchers for
the selected patch set (the chain of `if … in self.config.patches` tests). -/
def catalogOrder : List PatchType :=
  [PatchType.website, PatchType.public_key, PatchType.blocking,
   PatchType.invalid_request, PatchType.trust_check, PatchType.ratnet_key,
   PatchType.html_service]

/-- The requested kinds, in the order the orchestrator visits them. -/
def requestedList (selected : PatchType → Bool) : List PatchType :=
  catalogOrder.filter selected

/-- Outcome of one loop iteration given the per-kind `validate()` and
`apply()` results. -/
def runOne (v a : PatchType → Bool) (k : PatchType) : PatchOutcome :=
  if ¬ v k then PatchOutcome.skipped
  else if a k then PatchOutcome.applied
  else PatchOutcome.failed

/-- The orchestration loop of `_apply_patches_thread`: visit every requested
kind in order, record an outcome for each, count successes, and never break
out of the loop.  Returns the per-kind outcomes and the success count `N`
reported in the final `(N/M)` summary. -/
def apply_patches_thread (selected v a : PatchType → Bool) :
    List (PatchType × PatchOutcome) × Nat :=
  (requestedList selected).foldl
    (fun acc k =>
      if ¬ v k then (acc.1 ++ [(k, PatchOutcome.skipped)], acc.2)
      else if a k then (acc.1 ++ [(k, PatchOutcome.applied)], acc.2 + 1)
      else (acc.1 ++ [(k, PatchOutcome.failed)], acc.2))
    ([], 0)

/-! ## Deploy-history parsing (src/client_downloader.py lines 56-95 and
src/deploy_downloader.py lines 72-101) -/

/-- One parsed deploy-history record. -/
structure DeployRecord where
  hash : PyStr
  timestamp : PyStr
  version_id : Option PyStr
  year : Nat
deriving DecidableEq, Repr

/-- Python `line.split(sep)` for a one-character separator. -/
def splitOnChar (sep : Char) : PyStr → List PyStr
  | [] => [[]]
  | c :: rest =>
    if c = sep then [] :: splitOnChar sep rest
    else
      match splitOnChar sep rest with
      | [] => [[c]]
      | h :: t => (c :: h) :: t

/-- Python `str.strip()` whitespace characters. -/
def isWsChar (c : Char) : Bool :=
  c = ' ' || c = '\t' || c = '\n' || c = '\r' ||
    c = Char.ofNat 11 || c = Char.ofNat 12

/-- Python `s.strip()`. -/
def pyStrip (s : PyStr) : PyStr :=
  ((s.dropWhile isWsChar).reverse.dropWhile isWsChar).reverse

/-- ASCII decimal digit test. -/
def isDigitCh (c : Char) : Bool := '0' ≤ c && c ≤ '9'

/-- Numeric value of an ASCII digit. -/
def digitVal (c : Char) : Nat := c.toNat - 48

/-- `datetime.strptime(timestamp, '%Y-%m-%d %H:%M:%S').year`, as applied to
the zero-padded fixed-width timestamps of the deploy log: the 19-character
shape with in-range fields yields the year, anything else raises
(`none`; `datetime` also rejects year 0). -/
def strptimeYear? (s : PyStr) : Option Nat :=
  match s with
  | [y1, y2, y3, y4, h1, mo1, mo2, h2, d1, d2, sp, hh1, hh2, co1, mi1, mi2, co2, ss1, ss2] =>
    let year := 1000 * digitVal y1 + 100 * digitVal y2 + 10 * digitVal y3 + digitVal y4
    let month := 10 * digitVal mo1 + digitVal mo2
    let day := 10 * digitVal d1 + digitVal d2
    let hour := 10 * digitVal hh1 + digitVal hh2
    let minute := 10 * digitVal mi1 + digitVal mi2
    let sec := 10 * digitVal ss1 + digitVal ss2
    if isDigitCh y1 && isDigitCh y2 && isDigitCh y3 && isDigitCh y4 &&
       h1 = '-' && isDigitCh mo1 && isDigitCh mo2 && h2 = '-' &&
       isDigitCh d1 && isDigitCh d2 && sp = ' ' &&
       isDigitCh hh1 && isDigitCh hh2 && co1 = ':' &&
       isDigitCh mi1 && isDigitCh mi2 && co2 = ':' &&
       isDigitCh ss1 && isDigitCh ss2 &&
       1 ≤ year && 1 ≤ month && month ≤ 12 && 1 ≤ day && day ≤ 31 &&
       hour ≤ 23 && minute ≤ 59 && sec ≤ 61
    then some year
    else none
  | _ => none

/-- The fallback `re.search(r'20\d\d', timestamp)`: the leftmost 4-character
run `20` followed by two digits. -/
def findYear20 : PyStr → Option Nat
  | c1 :: c2 :: c3 :: c4 :: rest =>
    if c1 = '2' && c2 = '0' && isDigitCh c3 && isDigitCh c4 then
      some (2000 + 10 * digitVal c3 + digitVal c4)
    else findYear20 (c2 :: c3 :: c4 :: rest)
  | _ => none
termination_by l => l.length
decreasing_by simp

/-- Lowercase-hex digit, the class of `version-([0-9a-f]+)`. -/
def isHexLower (c : Char) : Bool := isDigitCh c || ('a' ≤ c && c ≤ 'f')

/-- The literal marker of `re.search(r'version-([0-9a-f]+)', version_hash)`. -/
def versionMarker : PyStr := pystr "version-"

/-- The captured group of `re.search(r'version-([0-9a-f]+)', version_hash)`:
leftmost occurrence of the marker followed by a nonempty, maximal hex run. -/
def findVersionId : PyStr → Option PyStr
  | [] => none
  | c :: rest =>
    let body := ((c :: rest).drop versionMarker.length).takeWhile isHexLower
    if versionMarker.isPrefixOf (c :: rest) && ¬ body.isEmpty then some body
    else findVersionId rest

/-- One iteration of the parsing loop in
`client_downloader.DeployDownloader.download_deploy_history`: the whole body
is wrapped in a per-line `try/except: continue`, so each line independently
yields at most one record.  Lines with fewer than two comma fields are
skipped; so are header-looking lines (first field starting with `file` or no
`:` in the second field); the timestamp is parsed with `strptime`, falling
back to a `20\d\d` scan; a line with no derivable year is dropped. -/
def parseClientLine (line : PyStr) : Option DeployRecord :=
  let parts := splitOnChar ',' line
  if parts.length ≥ 2 then
    let version_hash := pyStrip (parts.getD 0 [])
    let timestamp := pyStrip (parts.getD 1 [])
    if (pystr "file").isPrefixOf version_hash || ¬ timestamp.contains ':' then none
    else
      let year? :=
        match strptimeYear? timestamp with
        | some y => some y
        | none => findYear20 timestamp
      match year? with
      | some y => some ⟨version_hash, timestamp, findVersionId version_hash, y⟩
      | none => none
  else none

/-- The full parsing loop of the UI downloader (src/client_downloader.py
lines 56-95), over the split lines of the response text. -/
def clientParseLines (lines : List PyStr) : List DeployRecord :=
  lines.filterMap parseClientLine

/-- A line the UI parser accepts. -/
def lineParses (line : PyStr) : Bool :=
  (parseClientLine line).isSome

/-- One iteration of the parsing loop in
`deploy_downloader.DeployDownloader.download_deploy_history` (lines 72-101).
There is no per-line exception handler there: `none` means the iteration
raised (`strptime` failed), `some none` means the line was skipped for
having fewer than two fields, `some (some r)` yields a record. -/
def parseDeployLine (line : PyStr) : Option (Option DeployRecord) :=
  let parts := splitOnChar ',' line
  if parts.length ≥ 2 then
    let h := pyStrip (parts.getD 0 [])
    let ts := pyStrip (parts.getD 1 [])
    match strptimeYear? ts with
    | none => none
    | some y => some (some ⟨h, ts, findVersionId h, y⟩)
  else some none

/-- The loop of the CLI parser: an exception on any line propagates out of
the loop. -/
def deployGo : List PyStr → List DeployRecord → Option (List DeployRecord)
  | [], acc => some acc
  | l :: ls, acc =>
    match parseDeployLine l with
    | none => none
    | some none => deployGo ls acc
    | some (some r) => deployGo ls (acc ++ [r])

/-- The full parsing of the CLI downloader (src/deploy_downloader.py lines
72-101): the surrounding `try/except` turns any raised line into an empty
result for the whole log. -/
def deployParseLines (lines : List PyStr) : List DeployRecord :=
  (deployGo lines []).getD []

/-! ## Version selection (src/deploy_downloader.py lines 228-294, 381-398) -/

/-- Python string `<=`: code-point lexicographic order. -/
def lexLe : PyStr → PyStr → Bool
  | [], _ => true
  | _ :: _, [] => false
  | a :: as, b :: bs => if a < b then true else if b < a then false else lexLe as bs

/-- `year_versions.sort(key=lambda v: v['timestamp'], reverse=True)` is a
stable descending sort by timestamp; stable insertion keeping an incoming
earlier element ahead of later elements with an equal key reproduces it. -/
def insertDesc (x : DeployRecord) : List DeployRecord → List DeployRecord
  | [] => [x]
  | y :: ys =>
    if lexLe y.timestamp x.timestamp then x :: y :: ys
    else y :: insertDesc x ys

/-- The stable descending sort used by `download_by_year`. -/
def sortTsDesc : List DeployRecord → List DeployRecord
  | [] => []
  | x :: xs => insertDesc x (sortTsDesc xs)

/-- The selection core of `DeployDownloader.download_by_year` (lines
228-271): filter the parsed records by derived year, return nothing when no
record matches, otherwise the newest `maxVersions` records by timestamp. -/
def download_by_year (versions : List DeployRecord) (year maxVersions : Nat) :
    List DeployRecord :=
  let yearVersions := versions.filter (fun v => v.year == year)
  if yearVersions.isEmpty then []
  else (sortTsDesc yearVersions).take maxVersions

/-- The selection core of `DeployDownloader.download_range` (lines 273-294):
`for year in range(start_year, end_year + 1)`, concatenating each year's
selection.  `range` is empty when `start_year > end_year`. -/
def download_range (versions : List DeployRecord) (startYear endYear maxPer : Nat) :
    List DeployRecord :=
  (((List.range (endYear + 1 - startYear)).map (fun i => startYear + i)).map
    (fun y => download_by_year versions y maxPer)).flatten

/-- The `--range` path of `main` (lines 381-398): swap out-of-order bounds,
then call `download_range`. -/
def mainRange (versions : List DeployRecord) (a b maxPer : Nat) :
    List DeployRecord :=
  if a > b then download_range versions b a maxPer
  else download_range versions a b maxPer

/-! ## Helper lemmas -/

/-- The backup path is always distinct from the target path. -/
theorem backupPath_ne (p : PyStr) : backupPath p ≠ p := by
  intro h
  have hlen := congrArg List.length h
  simp [backupPath, pystr] at hlen

/-- `create_backup` and `backup_client` implement the same backup logic. -/
theorem create_backup_eq_backup_client (fs : FS) (p : PyStr) :
    create_backup fs p = backup_client fs p := rfl

/-! ## C3 -/

/-- C3: for every filesystem, target path and search/replace pair of
differing byte length, `replace_in_binary` fails in its length-mismatch
branch and leaves the filesystem — in particular the target file's bytes —
completely unchanged. -/
theorem replace_lengthMismatch_noop (fs : FS) (path : PyStr)
    (search repl : List Nat) (h : search.length ≠ repl.length) :
    replace_in_binary fs path search repl = (ReplaceOutcome.lengthMismatch, fs) := by
  simp [replace_in_binary, h]

theorem replace_lengthMismatch_noop_witness :
    replace_in_binary (fun _ => none) (pystr "client.exe") [1] [1, 2] =
      (ReplaceOutcome.lengthMismatch, (fun _ => none : FS)) :=
  replace_lengthMismatch_noop _ _ _ _ (by decide)

/-! ## C10 -/

/-- C10: `_validate_domain` always returns exactly 10 characters, returning a
10-character domain unchanged, padding a shorter one on the right with `'.'`
and truncating a longer one to its first 10 characters; no input is ever
rejected (the function is total and never raises). -/
theorem validate_domain_normalizes (domain : PyStr) :
    (validate_domain domain).length = 10 ∧
    validate_domain domain =
      (if domain.length ≤ 10 then domain ++ dotPad (10 - domain.length)
       else domain.take 10) := by
  by_cases h10 : domain.length = 10
  · constructor
    · simp [validate_domain, h10]
    · simp [validate_domain, h10, dotPad]
  · by_cases hlt : domain.length < 10
    · constructor
      · simp [validate_domain, h10, hlt, dotPad]
        omega
      · simp [validate_domain, h10, hlt, Nat.le_of_lt hlt]
    · have hgt : domain.length > 10 := by omega
      have hnle : ¬ domain.length ≤ 10 := by omega
      constructor
      · simp [validate_domain, h10, hlt, hgt]
        omega
      · simp [validate_domain, h10, hlt, hgt, hnle]

/-! ## C1 -/

/-- C1: whenever a patch's validation precondition fails — for the Website
patch any config whose domain is not exactly 10 characters or whose client
file does not exist, and likewise for the PublicKey patch — `apply()`
short-circuits on the internal `validate()` call and returns failure with
the whole filesystem (target binary and sidecar settings file included)
untouched. -/
theorem apply_validateFail_noWrites
    (updateXml : List Nat → PyStr → List Nat) (runKeygen : FS → Int × FS)
    (fs : FS) (cfg : PatchConfig) :
    (websiteValidate fs cfg = false → websiteApply updateXml fs cfg = (false, fs)) ∧
    (cfg.website_domain.length ≠ 10 → websiteValidate fs cfg = false) ∧
    (fs cfg.client_path = none → websiteValidate fs cfg = false) ∧
    (publicKeyValidate fs cfg = false → publicKeyApply runKeygen fs cfg = (false, fs)) := by
  refine ⟨fun h => ?_, fun h => ?_, fun h => ?_, fun h => ?_⟩
  · simp [websiteApply, h]
  · simp [websiteValidate, h]
  · simp [websiteValidate, fsExists, h]
  · simp [publicKeyApply, h]

theorem apply_validateFail_noWrites_witness :
    websiteApply (fun old _ => old) (fun _ => none)
        { client_path := pystr "c.exe", website_domain := pystr "short" } =
      (false, (fun _ => none : FS)) ∧
    publicKeyApply (fun s => (0, s)) (fun _ => none)
        { client_path := pystr "c.exe", website_domain := pystr "short" } =
      (false, (fun _ => none : FS)) :=
  ⟨(apply_validateFail_noWrites (fun old _ => old) (fun s => (0, s))
      (fun _ => none) _).1 (by decide),
   (apply_validateFail_noWrites (fun old _ => old) (fun s => (0, s))
      (fun _ => none) _).2.2.2 (by decide)⟩

/-! ## C5 -/

/-- C5: `backup_client` (and the identical `create_backup`) is idempotent
and never clobbers.  Given an existing target with no backup yet: the first
call creates `path + ".backup"` holding the target's bytes; an immediate
second call returns the existing backup and writes nothing; even after the
target is mutated, a further call still writes nothing and the backup still
holds the bytes from the time of the first call. -/
theorem ensureBackup_idempotent (fs : FS) (p : PyStr) (data d' : List Nat)
    (hsrc : fs p = some (FsEntry.file data))
    (hnone : fs (backupPath p) = none) :
    backup_client fs p =
      (some (backupPath p), fsWrite fs (backupPath p) (FsEntry.file data)) ∧
    fsWrite fs (backupPath p) (FsEntry.file data) (backupPath p) =
      some (FsEntry.file data) ∧
    backup_client (fsWrite fs (backupPath p) (FsEntry.file data)) p =
      (some (backupPath p), fsWrite fs (backupPath p) (FsEntry.file data)) ∧
    backup_client
        (fsWrite (fsWrite fs (backupPath p) (FsEntry.file data)) p (FsEntry.file d')) p =
      (some (backupPath p),
        fsWrite (fsWrite fs (backupPath p) (FsEntry.file data)) p (FsEntry.file d')) ∧
    fsWrite (fsWrite fs (backupPath p) (FsEntry.file data)) p (FsEntry.file d')
        (backupPath p) =
      some (FsEntry.file data) ∧
    create_backup fs p = backup_client fs p := by
  have hne : p ≠ backupPath p := (backupPath_ne p).symm
  have hne' : backupPath p ≠ p := backupPath_ne p
  refine ⟨?_, ?_, ?_, ?_, ?_, rfl⟩
  · simp [backup_client, hsrc, hnone]
  · simp [fsWrite]
  · simp [backup_client, fsWrite, hne, hne', hsrc]
  · simp [backup_client, fsWrite, hne, hne', hsrc]
  · simp [fsWrite, hne, hne']

theorem ensureBackup_idempotent_witness :
    backup_client (fun q => if q = pystr "t.exe" then some (FsEntry.file [1]) else none)
        (pystr "t.exe") =
      (some (backupPath (pystr "t.exe")),
        fsWrite (fun q => if q = pystr "t.exe" then some (FsEntry.file [1]) else none)
          (backupPath (pystr "t.exe")) (FsEntry.file [1])) ∧
    fsWrite (fsWrite (fun q => if q = pystr "t.exe" then some (FsEntry.file [1]) else none)
          (backupPath (pystr "t.exe")) (FsEntry.file [1]))
        (pystr "t.exe") (FsEntry.file [2]) (backupPath (pystr "t.exe")) =
      some (FsEntry.file [1]) :=
  ⟨(ensureBackup_idempotent _ _ [1] [2] (by decide) (by decide)).1,
   (ensureBackup_idempotent _ _ [1] [2] (by decide) (by decide)).2.2.2.2.1⟩

/-! ## C6 -/

/-- The orchestration fold, characterized: outcomes accumulate one per
visited kind and the success counter counts the kinds that validated and
applied. -/
theorem orchestrate_foldl (v a : PatchType → Bool) (l : List PatchType) :
    ∀ (acc : List (PatchType × PatchOutcome)) (n : Nat),
      l.foldl
        (fun acc k =>
          if ¬ v k then (acc.1 ++ [(k, PatchOutcome.skipped)], acc.2)
          else if a k then (acc.1 ++ [(k, PatchOutcome.applied)], acc.2 + 1)
          else (acc.1 ++ [(k, PatchOutcome.failed)], acc.2))
        (acc, n) =
      (acc ++ l.map (fun k => (k, runOne v a k)),
       n + (l.filter (fun k => v k && a k)).length) := by
  induction l with
  | nil => simp
  | cons k t ih =>
    intro acc n
    rw [List.foldl_cons]
    by_cases hv : v k
    · by_cases ha : a k
      · have hstep :
          (if ¬ v k = true then ((acc, n).1 ++ [(k, PatchOutcome.skipped)], (acc, n).2)
           else if a k = true then ((acc, n).1 ++ [(k, PatchOutcome.applied)], (acc, n).2 + 1)
           else ((acc, n).1 ++ [(k, PatchOutcome.failed)], (acc, n).2)) =
          (acc ++ [(k, PatchOutcome.applied)], n + 1) := by simp [hv, ha]
        rw [hstep, ih]
        simp [runOne, hv, ha]
        omega
      · have hstep :
          (if ¬ v k = true then ((acc, n).1 ++ [(k, PatchOutcome.skipped)], (acc, n).2)
           else if a k = true then ((acc, n).1 ++ [(k, PatchOutcome.applied)], (acc, n).2 + 1)
           else ((acc, n).1 ++ [(k, PatchOutcome.failed)], (acc, n).2)) =
          (acc ++ [(k, PatchOutcome.failed)], n) := by simp [hv, ha]
        rw [hstep, ih]
        simp [runOne, hv, ha]
    · have hstep :
        (if ¬ v k = true then ((acc, n).1 ++ [(k, PatchOutcome.skipped)], (acc, n).2)
         else if a k = true then ((acc, n).1 ++ [(k, PatchOutcome.applied)], (acc, n).2 + 1)
         else ((acc, n).1 ++ [(k, PatchOutcome.failed)], (acc, n).2)) =
        (acc ++ [(k, PatchOutcome.skipped)], n) := by simp [hv]
      rw [hstep, ih]
      simp [runOne, hv]

/-- C6: for every requested patch set and every behaviour of the individual
validate/apply steps, the orchestration loop produces exactly one outcome
per requested kind, in the fixed visiting order; a kind failing validation
yields the skipped outcome while every later kind is still visited with its
own independently determined outcome; and the reported success count `N`
(of the `N of M` summary) counts exactly the kinds that validated and
applied, never cutting the sequence short. -/
theorem orchestrator_partial_failure (selected v a : PatchType → Bool) :
    apply_patches_thread selected v a =
      ((requestedList selected).map (fun k => (k, runOne v a k)),
       ((requestedList selected).filter (fun k => v k && a k)).length) ∧
    (apply_patches_thread selected v a).1.length = (requestedList selected).length ∧
    (apply_patches_thread selected v a).2 ≤ (requestedList selected).length := by
  have h1 : apply_patches_thread selected v a =
      ((requestedList selected).map (fun k => (k, runOne v a k)),
       ((requestedList selected).filter (fun k => v k && a k)).length) := by
    unfold apply_patches_thread
    rw [orchestrate_foldl]
    simp
  refine ⟨h1, ?_, ?_⟩
  · rw [h1]
    simp
  · rw [h1]
    exact List.length_filter_le _ _

/-! ## ByteEditor lemmas -/

/-- A matched search pattern decomposes the buffer. -/
theorem prefix_decomp (s : List Nat) (hs : s ≠ []) (c : Nat) (rest : List Nat)
    (h : s.isPrefixOf (c :: rest) = true) :
    s ++ rest.drop (s.length - 1) = c :: rest := by
  obtain ⟨u, hu⟩ := List.isPrefixOf_iff_prefix.mp h
  have hdrop : (s ++ u).drop s.length = u := List.drop_left s u
  rw [hu] at hdrop
  have hshape : (c :: rest).drop s.length = rest.drop (s.length - 1) := by
    obtain ⟨a, s', rfl⟩ : ∃ a s', s = a :: s' := by
      cases s with
      | nil => exact absurd rfl hs
      | cons a s' => exact ⟨a, s', rfl⟩
    simp
  rw [hshape] at hdrop
  rw [← hdrop] at hu
  exact hu

/-- The replace scan never produces an empty chunk list. -/
theorem chunks_ne_nil (s : List Nat) : ∀ c, chunks s c ≠ [] := by
  intro c
  induction c using chunks.induct s with
  | case1 => simp [chunks]
  | case2 c rest hp ih => simp [chunks, hp]
  | case3 c rest hp hm ih => simp [chunks, hp, hm]
  | case4 c rest hp h t hm ih => simp [chunks, hp, hm]

theorem intercalate_double_head (s h : List Nat) (t : List (List Nat)) :
    List.intercalate s ([] :: h :: t) = s ++ List.intercalate s (h :: t) := by
  simp [List.intercalate, List.intersperse]

theorem intercalate_cons_head (s : List Nat) (c : Nat) (h : List Nat)
    (t : List (List Nat)) :
    List.intercalate s ((c :: h) :: t) = c :: List.intercalate s (h :: t) := by
  cases t with
  | nil => simp [List.intercalate]
  | cons y t' => simp [List.intercalate, List.intersperse]

/-- Interleaving the chunks with the search pattern recovers the original
buffer: the scan decomposes the buffer into untouched stretches separated by
the `k` non-overlapping occurrences of the pattern. -/
theorem intercalate_chunks_self (s : List Nat) (hs : s ≠ []) :
    ∀ c, List.intercalate s (chunks s c) = c := by
  intro c
  induction c using chunks.induct s with
  | case1 => simp [chunks, List.intercalate]
  | case2 c rest hp ih =>
    rcases hch : chunks s (rest.drop (s.length - 1)) with _ | ⟨h, t⟩
    · exact absurd hch (chunks_ne_nil s _)
    · rw [hch] at ih
      simp only [chunks, hp, if_true, hch]
      rw [intercalate_double_head, ih]
      exact prefix_decomp s hs c rest hp
  | case3 c rest hp hm ih => exact absurd hm (chunks_ne_nil s rest)
  | case4 c rest hp h t hm ih =>
    rw [hm] at ih
    simp only [chunks, hp, if_false, Bool.false_eq_true, hm]
    rw [intercalate_cons_head, ih]

/-- Interleaving the chunks with the replacement is exactly the replace
scan's result: every occurrence is rewritten identically. -/
theorem replaceScan_eq_intercalate (s r : List Nat) (_hs : s ≠ []) :
    ∀ c, replaceScan s r c = List.intercalate r (chunks s c) := by
  intro c
  induction c using chunks.induct s with
  | case1 => simp [chunks, replaceScan, List.intercalate]
  | case2 c rest hp ih =>
    rcases hch : chunks s (rest.drop (s.length - 1)) with _ | ⟨h, t⟩
    · exact absurd hch (chunks_ne_nil s _)
    · rw [hch] at ih
      simp only [chunks, replaceScan, hp, if_true, hch]
      rw [intercalate_double_head, ih]
  | case3 c rest hp hm ih => exact absurd hm (chunks_ne_nil s rest)
  | case4 c rest hp h t hm ih =>
    rw [hm] at ih
    simp only [chunks, replaceScan, hp, if_false, Bool.false_eq_true, hm]
    rw [intercalate_cons_head, ih]

/-- A buffer containing the pattern has at least one occurrence, hence at
least two chunks. -/
theorem containsSub_chunks_two (s : List Nat) (hs : s ≠ []) :
    ∀ c, containsSub s c = true → 2 ≤ (chunks s c).length := by
  intro c
  induction c using chunks.induct s with
  | case1 =>
    intro h
    simp [containsSub, List.isEmpty_iff, hs] at h
  | case2 c rest hp ih =>
    intro _
    have hne := chunks_ne_nil s (rest.drop (s.length - 1))
    have hlen := List.length_pos.mpr hne
    simp only [chunks, hp, if_true, List.length_cons]
    omega
  | case3 c rest hp hm ih => exact absurd hm (chunks_ne_nil s rest)
  | case4 c rest hp h t hm ih =>
    intro hcon
    have hrest : containsSub s rest = true := by
      simpa [containsSub, hp] using hcon
    have h2 := ih hrest
    rw [hm] at h2
    simp only [chunks, hp, if_false, Bool.false_eq_true, hm, List.length_cons] at h2 ⊢
    omega

/-- Same-length replacement preserves the buffer length (nonempty pattern). -/
theorem replaceScan_length (s r : List Nat) (hs : s ≠ [])
    (hlen : s.length = r.length) :
    ∀ c, (replaceScan s r c).length = c.length := by
  intro c
  induction c using chunks.induct s with
  | case1 => simp [replaceScan]
  | case2 c rest hp ih =>
    have hle : s.length ≤ rest.length + 1 := by
      have := (List.isPrefixOf_iff_prefix.mp hp).length_le
      simpa using this
    have hpos : 1 ≤ s.length := by
      cases s with
      | nil => exact absurd rfl hs
      | cons a s' => simp
    simp only [replaceScan, hp, if_true, List.length_append, ih,
      List.length_drop, List.length_cons]
    omega
  | case3 c rest hp hm ih => exact absurd hm (chunks_ne_nil s rest)
  | case4 c rest hp h t hm ih =>
    simp [replaceScan, hp, ih]

/-- Same-length `bytes.replace` preserves the buffer length. -/
theorem pyReplace_length (s r : List Nat) (hlen : s.length = r.length)
    (c : List Nat) : (pyReplace s r c).length = c.length := by
  by_cases hs : s = []
  · have hr : r = [] := by
      subst hs
      simpa using hlen.symm
    subst hs
    subst hr
    simp only [pyReplace, List.isEmpty_nil, if_true, List.nil_append]
    induction c with
    | nil => simp
    | cons x xs ih => simpa using ih
  · have : s.isEmpty = false := by simp [List.isEmpty_iff, hs]
    simp [pyReplace, this, replaceScan_length s r hs hlen c]

/-! ## C2 -/

/-- The key-replacement fold preserves length exactly when every located
occurrence has the new key's byte length. -/
theorem foldl_pyReplace_length (newKey : List Nat) :
    ∀ (ms : List (List Nat)) (acc : List Nat),
      (∀ m ∈ ms, m.length = newKey.length) →
      (ms.foldl (fun a o => pyReplace o newKey a) acc).length = acc.length := by
  intro ms
  induction ms with
  | nil => intro acc _; rfl
  | cons m t ih =>
    intro acc h
    have hm : m.length = newKey.length := h m (by simp)
    have ht : ∀ x ∈ t, x.length = newKey.length := fun x hx => h x (by simp [hx])
    simp only [List.foldl_cons]
    rw [ih (pyReplace m newKey acc) ht, pyReplace_length m newKey hm acc]

/-- C2 (amended): the replacement step of `PublicKeyPatcher.apply` writes
the generated key verbatim into each located occurrence — it performs no
padding or truncation — so the total binary length is preserved exactly
when every located key blob already has the new key's byte length. -/
theorem publicKey_replacement_length (content newKey : List Nat)
    (h : ∀ m ∈ findKeyMatches content, m.length = newKey.length) :
    (replacePublicKeys content newKey).length = content.length :=
  foldl_pyReplace_length newKey (findKeyMatches content) content h

theorem publicKey_replacement_length_witness :
    (replacePublicKeys [66, 71, 73, 65, 65, 120] [66, 71, 73, 65, 65, 121]).length =
      ([66, 71, 73, 65, 65, 120] : List Nat).length :=
  publicKey_replacement_length _ _ (by
    intro m hm
    simp [findKeyMatches, keyBlobStart, isB64] at hm
    simp [hm])

/-- C2 counterexample: a successful `PublicKeyPatcher.apply` run on a client
containing one six-byte key blob, with a seven-byte generated key, succeeds
and leaves the client seven bytes long: the claim that each occurrence is
padded/truncated to its original span length, keeping the total length
unchanged, is false — the code substitutes the new key verbatim. -/
theorem publicKey_changes_length_cex :
    (publicKeyApply (fun s => ((0 : Int), s))
        (fun q =>
          if q = pystr "client" then some (FsEntry.file [66, 71, 73, 65, 65, 120])
          else if q = pystr "tools" then some FsEntry.dir
          else if q = pystr "tools/KeyGenerator.exe" then some (FsEntry.file [])
          else if q = pystr "tools/PublicKeyBlob.txt" then
            some (FsEntry.file [66, 71, 73, 65, 65, 120, 121])
          else none)
        { client_path := pystr "client", rbxsigtools_path := pystr "tools" }).1 = true ∧
    (publicKeyApply (fun s => ((0 : Int), s))
        (fun q =>
          if q = pystr "client" then some (FsEntry.file [66, 71, 73, 65, 65, 120])
          else if q = pystr "tools" then some FsEntry.dir
          else if q = pystr "tools/KeyGenerator.exe" then some (FsEntry.file [])
          else if q = pystr "tools/PublicKeyBlob.txt" then
            some (FsEntry.file [66, 71, 73, 65, 65, 120, 121])
          else none)
        { client_path := pystr "client", rbxsigtools_path := pystr "tools" }).2
      (pystr "client") = some (FsEntry.file [66, 71, 73, 65, 65, 120, 121]) ∧
    ([66, 71, 73, 65, 65, 120, 121] : List Nat).length ≠
      ([66, 71, 73, 65, 65, 120] : List Nat).length := by
  refine ⟨?_, ?_, by decide⟩ <;>
    simp [publicKeyApply, publicKeyValidate, fsExists, joinPath, pystr,
      backup_client, backupPath, fsWrite, readFile, stripBytes, isWsByte,
      findKeyMatches, keyBlobStart, isB64, replacePublicKeys, pyReplace,
      replaceScan]

/-! ## C4 -/

/-- C4 (amended): a successful fixed-length replace on a buffer containing
the pattern rewrites all `k ≥ 1` non-overlapping occurrences identically
with the replacement (the buffer decomposes into chunks interleaved with the
pattern, and the result interleaves the same chunks with the replacement);
re-applying the operation with the original pattern then fails with
`patternNotFound` and changes nothing, provided the pattern does not occur
in the rewritten buffer — which can fail, e.g. when the replacement equals
the pattern or a new occurrence spans a replacement boundary. -/
theorem replace_rewrites_all_occurrences (fs : FS) (path : PyStr)
    (s r content : List Nat)
    (hfile : fs path = some (FsEntry.file content))
    (hlen : s.length = r.length) (hs : s ≠ [])
    (hocc : containsSub s content = true) :
    replace_in_binary fs path s r =
      (ReplaceOutcome.replaced,
        fsWrite fs path (FsEntry.file (List.intercalate r (chunks s content)))) ∧
    List.intercalate s (chunks s content) = content ∧
    2 ≤ (chunks s content).length ∧
    (containsSub s (List.intercalate r (chunks s content)) = false →
      replace_in_binary
          (fsWrite fs path (FsEntry.file (List.intercalate r (chunks s content))))
          path s r =
        (ReplaceOutcome.patternNotFound,
          fsWrite fs path (FsEntry.file (List.intercalate r (chunks s content))))) := by
  have hne : s.isEmpty = false := by simp [List.isEmpty_iff, hs]
  have hb : pyReplace s r content = List.intercalate r (chunks s content) := by
    simp [pyReplace, hne, replaceScan_eq_intercalate s r hs content]
  refine ⟨?_, intercalate_chunks_self s hs content,
    containsSub_chunks_two s hs content hocc, fun hnin => ?_⟩
  · simp [replace_in_binary, hlen, readFile, hfile, hocc, hb]
  · simp [replace_in_binary, hlen, readFile, fsWrite, hnin]

theorem replace_rewrites_all_occurrences_witness :
    replace_in_binary
        (fun q => if q = pystr "bin2" then some (FsEntry.file [0, 1, 2, 5, 1, 2, 6]) else none)
        (pystr "bin2") [1, 2] [3, 4] =
      (ReplaceOutcome.replaced,
        fsWrite
          (fun q => if q = pystr "bin2" then some (FsEntry.file [0, 1, 2, 5, 1, 2, 6]) else none)
          (pystr "bin2")
          (FsEntry.file (List.intercalate [3, 4] (chunks [1, 2] [0, 1, 2, 5, 1, 2, 6])))) ∧
    replace_in_binary
        (fsWrite
          (fun q => if q = pystr "bin2" then some (FsEntry.file [0, 1, 2, 5, 1, 2, 6]) else none)
          (pystr "bin2")
          (FsEntry.file (List.intercalate [3, 4] (chunks [1, 2] [0, 1, 2, 5, 1, 2, 6]))))
        (pystr "bin2") [1, 2] [3, 4] =
      (ReplaceOutcome.patternNotFound,
        fsWrite
          (fun q => if q = pystr "bin2" then some (FsEntry.file [0, 1, 2, 5, 1, 2, 6]) else none)
          (pystr "bin2")
          (FsEntry.file (List.intercalate [3, 4] (chunks [1, 2] [0, 1, 2, 5, 1, 2, 6])))) :=
  ⟨(replace_rewrites_all_occurrences _ _ _ _ _ (by decide) (by decide) (by decide)
      (by decide)).1,
   (replace_rewrites_all_occurrences _ _ _ _ _ (by decide) (by decide) (by decide)
      (by decide)).2.2.2
    (by
      simp [chunks, containsSub, List.intercalate, List.intersperse]
      decide)⟩

/-- C4 counterexample: with buffer `aab`, pattern `ab` and same-length
replacement `ba`, the first application succeeds and rewrites the buffer to
`aba`, in which the original pattern occurs again — so the second
application with the original search pattern succeeds once more instead of
failing with `patternNotFound`, refuting the claimed idempotent
detectability. -/
theorem replace_second_apply_cex :
    (replace_in_binary
        (fun q => if q = pystr "bin" then some (FsEntry.file [97, 97, 98]) else none)
        (pystr "bin") [97, 98] [98, 97]).1 = ReplaceOutcome.replaced ∧
    (replace_in_binary
        (replace_in_binary
          (fun q => if q = pystr "bin" then some (FsEntry.file [97, 97, 98]) else none)
          (pystr "bin") [97, 98] [98, 97]).2
        (pystr "bin") [97, 98] [98, 97]).1 = ReplaceOutcome.replaced := by
  constructor <;>
    simp [replace_in_binary, readFile, fsWrite, containsSub, pyReplace, replaceScan]

/-! ## C7 -/

/-- Dropping the unparsable elements of a list does not change a
`filterMap` over it. -/
theorem filterMap_eq_filterMap_filter (f : PyStr → Option DeployRecord) :
    ∀ l : List PyStr, l.filterMap f = (l.filter (fun x => (f x).isSome)).filterMap f := by
  intro l
  induction l with
  | nil => rfl
  | cons x xs ih =>
    rcases hx : f x with _ | v
    · simp [List.filter_cons, List.filterMap_cons, hx, ih]
    · simp [List.filter_cons, List.filterMap_cons, hx]
      exact ih

/-- C7 (amended): the UI downloader's deploy-history parser
(src/client_downloader.py) isolates malformed lines: a line that fails to
parse is dropped individually, and the parse of any line list equals the
parse of that list with all unparsable lines removed — one bad line never
aborts the rest.  (The CLI downloader's parser in src/deploy_downloader.py
does not have this property; see the counterexample.) -/
theorem client_parse_isolates (lines l1 l2 : List PyStr) (bad : PyStr)
    (hbad : lineParses bad = false) :
    clientParseLines (l1 ++ bad :: l2) = clientParseLines (l1 ++ l2) ∧
    clientParseLines lines = clientParseLines (lines.filter lineParses) := by
  have hnone : parseClientLine bad = none := by
    rcases h : parseClientLine bad with _ | v
    · rfl
    · simp [lineParses, h] at hbad
  constructor
  · simp [clientParseLines, List.filterMap_append, List.filterMap_cons, hnone]
  · exact filterMap_eq_filterMap_filter parseClientLine lines

theorem client_parse_isolates_witness :
    clientParseLines
        ([pystr "a,2015-01-01 00:00:00"] ++
          pystr "b,garbage" :: [pystr "c,2016-01-01 00:00:00"]) =
      clientParseLines
        ([pystr "a,2015-01-01 00:00:00"] ++ [pystr "c,2016-01-01 00:00:00"]) :=
  (client_parse_isolates [] _ _ _ (by decide)).1

/-- C7 counterexample: the CLI downloader's parser
(src/deploy_downloader.py lines 72-101) has no per-line exception handling:
on a log whose second line has two comma fields but an unparseable
timestamp, the `strptime` exception aborts the whole parse and every record
is lost, instead of only that line being dropped — parsing the same text
with the bad line removed yields two records. -/
theorem deploy_parse_aborts_cex :
    deployParseLines
        [pystr "a,2015-01-01 00:00:00", pystr "b,garbage",
         pystr "c,2016-01-01 00:00:00"] = [] ∧
    deployParseLines
        [pystr "a,2015-01-01 00:00:00", pystr "c,2016-01-01 00:00:00"] =
      [⟨pystr "a", pystr "2015-01-01 00:00:00", none, 2015⟩,
       ⟨pystr "c", pystr "2016-01-01 00:00:00", none, 2016⟩] := by
  decide

/-! ## C8 -/

/-- C8 (amended): `download_range` itself iterates
`range(start_year, end_year + 1)`, so out-of-order bounds make the range —
and hence the result — empty rather than being normalized; the
normalization to `[min(a,b), max(a,b)]` lives in the CLI entry point, which
swaps the bounds before calling, making the CLI-level `byRange` symmetric
in its year bounds for every record set and per-year cap. -/
theorem mainRange_symmetric (versions : List DeployRecord) (a b maxPer : Nat) :
    mainRange versions a b maxPer = mainRange versions b a maxPer := by
  unfold mainRange
  rcases Nat.lt_trichotomy a b with h | h | h
  · simp [Nat.not_lt.mpr (Nat.le_of_lt h), h]
  · simp [h]
  · simp [Nat.not_lt.mpr (Nat.le_of_lt h), h]

/-- C8 counterexample: swapping the bounds of `download_range` is not the
identity: with one 2011 record, `download_range(2012, 2010, 1)` is empty
(the year range is empty) while `download_range(2010, 2012, 1)` selects the
record — out-of-order bounds are treated as an empty range by the function
itself. -/
theorem download_range_not_symmetric_cex :
    download_range [⟨pystr "h1", pystr "2011-01-01 00:00:00", none, 2011⟩]
        2012 2010 1 = [] ∧
    download_range [⟨pystr "h1", pystr "2011-01-01 00:00:00", none, 2011⟩]
        2010 2012 1 =
      [⟨pystr "h1", pystr "2011-01-01 00:00:00", none, 2011⟩] := by
  decide

/-! ## C9 -/

/-- Code-point lexicographic order is total. -/
theorem lexLe_total : ∀ x y : PyStr, lexLe x y = true ∨ lexLe y x = true := by
  intro x
  induction x with
  | nil => intro y; left; rfl
  | cons a as ih =>
    intro y
    cases y with
    | nil => right; rfl
    | cons b bs =>
      by_cases hab : a < b
      · left; simp [lexLe, hab]
      · by_cases hba : b < a
        · right; simp [lexLe, hba]
        · rcases ih bs with h | h
          · left; simp [lexLe, hab, hba, h]
          · right; simp [lexLe, hab, hba, h]

/-- Code-point lexicographic order is transitive. -/
theorem lexLe_trans : ∀ x y z : PyStr,
    lexLe x y = true → lexLe y z = true → lexLe x z = true := by
  intro x
  induction x with
  | nil => intros; rfl
  | cons a as ih =>
    intro y z hxy hyz
    cases y with
    | nil => simp [lexLe] at hxy
    | cons b bs =>
      cases z with
      | nil => simp [lexLe] at hyz
      | cons c cs =>
        by_cases hab : a < b
        · by_cases hbc : b < c
          · simp [lexLe, lt_trans hab hbc]
          · by_cases hcb : c < b
            · simp [lexLe, hbc, hcb] at hyz
            · have hbceq : b = c := le_antisymm (not_lt.mp hcb) (not_lt.mp hbc)
              subst hbceq
              simp [lexLe, hab]
        · by_cases hba : b < a
          · simp [lexLe, hab, hba] at hxy
          · have habeq : a = b := le_antisymm (not_lt.mp hba) (not_lt.mp hab)
            subst habeq
            simp only [lexLe, lt_irrefl, if_false, ite_false] at hxy
            by_cases hac : a < c
            · simp [lexLe, hac]
            · by_cases hca : c < a
              · simp [lexLe, hac, hca] at hyz
              · have haceq : a = c := le_antisymm (not_lt.mp hca) (not_lt.mp hac)
                subst haceq
                simp only [lexLe, lt_irrefl, if_false, ite_false] at hyz ⊢
                exact ih bs cs hxy hyz

/-- Stable insertion produces a permutation. -/
theorem insertDesc_perm (x : DeployRecord) :
    ∀ l, (insertDesc x l).Perm (x :: l) := by
  intro l
  induction l with
  | nil => exact List.Perm.refl _
  | cons y ys ih =>
    by_cases h : lexLe y.timestamp x.timestamp
    · simp [insertDesc, h]
    · simp only [insertDesc, h, if_false, ite_false]
      exact (ih.cons y).trans (List.Perm.swap x y ys)

/-- The stable descending sort is a permutation of its input. -/
theorem sortTsDesc_perm : ∀ l, (sortTsDesc l).Perm l := by
  intro l
  induction l with
  | nil => exact List.Perm.refl _
  | cons x xs ih => exact (insertDesc_perm x (sortTsDesc xs)).trans (ih.cons x)

/-- Stable insertion preserves descending sortedness. -/
theorem insertDesc_sorted (x : DeployRecord) :
    ∀ l, List.Pairwise (fun a b => lexLe b.timestamp a.timestamp = true) l →
      List.Pairwise (fun a b => lexLe b.timestamp a.timestamp = true) (insertDesc x l) := by
  intro l
  induction l with
  | nil => intro _; simp [insertDesc]
  | cons y ys ih =>
    intro hp
    rcases List.pairwise_cons.mp hp with ⟨hy, hys⟩
    by_cases h : lexLe y.timestamp x.timestamp
    · simp only [insertDesc, h, if_true, ite_true]
      refine List.pairwise_cons.mpr ⟨?_, hp⟩
      intro z hz
      rcases List.mem_cons.mp hz with hz1 | hz2
      · subst hz1
        exact h
      · exact lexLe_trans _ _ _ (hy z hz2) h
    · simp only [insertDesc, h, if_false, ite_false]
      refine List.pairwise_cons.mpr ⟨?_, ih hys⟩
      intro z hz
      have hin := (insertDesc_perm x ys).mem_iff.mp hz
      rcases List.mem_cons.mp hin with hz1 | hz2
      · subst hz1
        rcases lexLe_total z.timestamp y.timestamp with ht | ht
        · exact ht
        · exact absurd ht h
      · exact hy z hz2

/-- The sort is sorted descending by timestamp. -/
theorem sortTsDesc_sorted : ∀ l,
    List.Pairwise (fun a b => lexLe b.timestamp a.timestamp = true) (sortTsDesc l) := by
  intro l
  induction l with
  | nil => simp [sortTsDesc]
  | cons x xs ih => exact insertDesc_sorted x (sortTsDesc xs) ih

/-- C9: for every parsed record list, year and cap, `download_by_year`
returns the first `maxVersions` elements of the stable descending
timestamp sort (code-point lexicographic, the comparison Python applies to
the fixed-width zero-padded timestamps) of exactly the records whose
derived year equals the given year; the result is sorted descending, its
length is `min maxVersions` (number of matching records), and an empty
result is an ordinary value (the spec's three-record example selects
exactly the newest 2015 record).  The sorted pool is a permutation of the
year-filtered records, so no other records are selected. -/
theorem byYear_selects (versions : List DeployRecord) (year maxVersions : Nat) :
    download_by_year versions year maxVersions =
      (sortTsDesc (versions.filter (fun v => v.year == year))).take maxVersions ∧
    (sortTsDesc (versions.filter (fun v => v.year == year))).Perm
      (versions.filter (fun v => v.year == year)) ∧
    List.Pairwise (fun a b => lexLe b.timestamp a.timestamp = true)
      (download_by_year versions year maxVersions) ∧
    (download_by_year versions year maxVersions).length =
      min maxVersions (versions.filter (fun v => v.year == year)).length ∧
    download_by_year
        [⟨pystr "h1", pystr "2015-01-01 00:00:00", none, 2015⟩,
         ⟨pystr "h2", pystr "2015-06-01 00:00:00", none, 2015⟩,
         ⟨pystr "h3", pystr "2014-01-01 00:00:00", none, 2014⟩] 2015 1 =
      [⟨pystr "h2", pystr "2015-06-01 00:00:00", none, 2015⟩] := by
  have h1 : download_by_year versions year maxVersions =
      (sortTsDesc (versions.filter (fun v => v.year == year))).take maxVersions := by
    unfold download_by_year
    by_cases he : (versions.filter (fun v => v.year == year)).isEmpty
    · rw [List.isEmpty_iff] at he
      simp [he, sortTsDesc]
    · simp [he]
  refine ⟨h1, sortTsDesc_perm _, ?_, ?_, by decide⟩
  · rw [h1]
    exact (sortTsDesc_sorted _).sublist (List.take_sublist _ _)
  · rw [h1]
    rw [List.length_take, (sortTsDesc_perm _).length_eq]
